import Mathlib

/-!
# Verification of the React_Table client-side tabular view engine

A shallow embedding of the data model and operations of the `React_Table`
repository (a client-side data grid over a synthetic student record set),
together with proofs about sorting state, status filtering, inline edit
validation and commit, CSV export, and persisted-settings loading.

The definitions are translated from the TypeScript source
(`src/components/DataTable/index.tsx`, `src/utils/validation.ts`,
`src/hooks/useTableSettings.ts`, `src/types/index.ts`).  JavaScript string
and number builtins (`trim`, `split`, `parseInt`, `parseFloat`, `Number`,
`JSON.parse`) are modelled explicitly below; numbers produced by
`parseFloat` are represented exactly as unnormalised decimal fractions
(numerator over a positive power of ten), which coincides with the
JavaScript behaviour on every input relevant here.
-/

/-! ## Models of JavaScript string and number builtins -/

/-- JavaScript `String.prototype.trim` on a character list: drop whitespace
from both ends (whitespace modelled as ASCII space, tab, CR, LF). -/
def jsTrimChars (cs : List Char) : List Char :=
  ((cs.dropWhile Char.isWhitespace).reverse.dropWhile Char.isWhitespace).reverse

/-- JavaScript `String.prototype.trim` on a `String`. -/
def jsTrim (s : String) : String :=
  String.mk (jsTrimChars s.data)

/-- JavaScript `String.prototype.split` with a single-character separator:
splits at every occurrence, keeping empty pieces (so `"".split(sep)` is
`[""]`). -/
def splitOnChar (sep : Char) : List Char → List (List Char)
  | [] => [[]]
  | c :: cs =>
    let r := splitOnChar sep cs
    if c = sep then [] :: r
    else
      match r with
      | [] => [[c]]
      | h :: t => (c :: h) :: t

/-- The numeric value of a list of decimal digit characters. -/
def digitsToNat (cs : List Char) : Nat :=
  cs.foldl (fun acc c => acc * 10 + (c.toNat - 48)) 0

/-- JavaScript `parseInt(s)` with the default base-10 radix: skip leading
whitespace, read an optional sign and then a maximal run of decimal
digits; `none` models `NaN` (no digit found).  The `0x` hexadecimal
special case is not modelled: no caller in this repository feeds
hexadecimal text to `parseInt`. -/
def jsParseInt (s : String) : Option Int :=
  let cs := s.data.dropWhile Char.isWhitespace
  let (sgn, cs) :=
    match cs with
    | '-' :: rest => ((-1 : Int), rest)
    | '+' :: rest => ((1 : Int), rest)
    | _ => ((1 : Int), cs)
  let ds := cs.takeWhile Char.isDigit
  if ds.isEmpty then none else some (sgn * (digitsToNat ds : Int))

/-- An exact decimal number `num / 10 ^ exp10`: the result of parsing a
decimal literal.  Represents the rational value without normalisation so
that all comparisons are plain integer arithmetic. -/
structure DecNum where
  num : Int
  exp10 : Nat
deriving DecidableEq

/-- The decimal number `n / 10 ^ e` is strictly below the integer `m`. -/
def DecNum.ltInt (x : DecNum) (m : Int) : Bool :=
  x.num < m * ((10 : Int) ^ x.exp10)

/-- The decimal number `n / 10 ^ e` is strictly above the integer `m`. -/
def DecNum.gtInt (x : DecNum) (m : Int) : Bool :=
  m * ((10 : Int) ^ x.exp10) < x.num

/-- Scale a decimal number by `10 ^ e` for an exponent `e` (the `e`/`E`
suffix of a JavaScript float literal). -/
def DecNum.scale (x : DecNum) (e : Int) : DecNum :=
  match e with
  | .ofNat k => ⟨x.num * ((10 : Int) ^ k), x.exp10⟩
  | .negSucc k => ⟨x.num, x.exp10 + (k + 1)⟩

/-- JavaScript `parseFloat(s)`: skip leading whitespace, read an optional
sign, integer digits, an optional fraction and an optional exponent,
ignoring any trailing garbage; `none` models `NaN`.  (`Infinity` literals
are not modelled: no caller in this repository produces them.) -/
def jsParseFloat (s : String) : Option DecNum :=
  let cs := s.data.dropWhile Char.isWhitespace
  let (sgn, cs) :=
    match cs with
    | '-' :: rest => ((-1 : Int), rest)
    | '+' :: rest => ((1 : Int), rest)
    | _ => ((1 : Int), cs)
  let ip := cs.takeWhile Char.isDigit
  let rest := cs.dropWhile Char.isDigit
  let (fp, rest2) :=
    match rest with
    | '.' :: r => (r.takeWhile Char.isDigit, r.dropWhile Char.isDigit)
    | _ => ([], rest)
  if ip.isEmpty ∧ fp.isEmpty then none
  else
    let mant : DecNum :=
      ⟨sgn * ((digitsToNat ip * 10 ^ fp.length + digitsToNat fp : Nat) : Int), fp.length⟩
    let expv : Int :=
      match rest2 with
      | c :: r =>
        if c = 'e' ∨ c = 'E' then
          let (esgn, r2) :=
            match r with
            | '-' :: rr => ((-1 : Int), rr)
            | '+' :: rr => ((1 : Int), rr)
            | _ => ((1 : Int), r)
          let ed := r2.takeWhile Char.isDigit
          if ed.isEmpty then 0 else esgn * (digitsToNat ed : Int)
        else 0
      | [] => 0
    some (mant.scale expv)

/-- JavaScript `Number(s)` conversion: the whole (trimmed) string must be a
numeric literal; the empty string converts to `0`; `none` models `NaN`. -/
def jsNumber (s : String) : Option DecNum :=
  let t := jsTrimChars s.data
  if t.isEmpty then some ⟨0, 0⟩
  else
    match jsParseFloat (String.mk t) with
    | some v =>
      -- `Number` accepts the literal only when parseFloat consumes it all:
      -- re-check that every character is part of one float literal.
      if jsNumberShape t then some v else none
    | none => none
where
  /-- Whether a character list is exactly one decimal float literal
  (optional sign, digits with optional fraction, optional exponent). -/
  jsNumberShape (t : List Char) : Bool :=
    let t1 := match t with
      | '-' :: r => r
      | '+' :: r => r
      | r => r
    let ip := t1.takeWhile Char.isDigit
    let r1 := t1.dropWhile Char.isDigit
    let (fp, r2) :=
      match r1 with
      | '.' :: r => (r.takeWhile Char.isDigit, r.dropWhile Char.isDigit)
      | _ => ([], r1)
    if ip.isEmpty ∧ fp.isEmpty then false
    else
      match r2 with
      | [] => true
      | c :: r =>
        (c = 'e' ∨ c = 'E') &&
          (let r3 := match r with
            | '-' :: rr => rr
            | '+' :: rr => rr
            | rr => rr
          (¬ (r3.takeWhile Char.isDigit).isEmpty) && (r3.dropWhile Char.isDigit).isEmpty)

/-- Decimal digit characters of a natural number, most significant first
(auxiliary, fuel-driven so that it reduces in the kernel). -/
def natCharsAux : Nat → Nat → List Char
  | 0, _ => []
  | fuel + 1, n =>
    if n = 0 then []
    else natCharsAux fuel (n / 10) ++ [Char.ofNat (48 + n % 10)]

/-- Decimal digit characters of a natural number (JavaScript number → string
conversion for non-negative integers). -/
def natChars (n : Nat) : List Char :=
  if n = 0 then ['0'] else natCharsAux n n

/-- JavaScript number → string conversion for integers (as interpolated into
CSV text). -/
def intChars (n : Int) : List Char :=
  match n with
  | .ofNat m => natChars m
  | .negSucc m => '-' :: natChars (m + 1)

/-! ## Data model (`src/types/index.ts`)

`Student` is one record of the record set.  The TypeScript field types
`number` are modelled as `Int`: every value this repository stores in them
is an integer (the generator produces integers and edits write `parseInt`
results).  The `status` field is a `String` at runtime; the TypeScript
type constrains it to the three literals of `VALID_STATUSES`. -/

structure Student where
  id : String
  name : String
  age : Int
  grade : Int
  email : String
  phone : String
  major : String
  enrollmentDate : String
  graduationDate : String
  status : String
deriving DecidableEq

/-- A cell coordinate: record identifier plus column identifier
(the `FocusedCell` type of `DataTable/index.tsx`). -/
structure FocusedCell where
  rowId : String
  columnId : String
deriving DecidableEq

/-- One validation error (the `ValidationError` type of
`DataTable/index.tsx`). -/
structure VError where
  field : String
  message : String
deriving DecidableEq

/-- One sort rule, a `(column, direction)` pair (an entry of the tanstack
`SortingState`). -/
structure SortRule where
  id : String
  desc : Bool
deriving DecidableEq

/-- A converted cell value as written into a record by `convertValue`. -/
inductive CellValue where
  | num (n : Int)
  | str (s : String)
deriving DecidableEq

/-! ## Validation (`DataTable/index.tsx` lines 18–247) -/

/-- `VALID_MAJORS` from `DataTable/index.tsx`. -/
def VALID_MAJORS : List String :=
  ["Computer Science", "Mathematics", "Physics", "Chemistry", "Biology",
   "Engineering", "Business", "Economics", "Psychology", "Literature",
   "History", "Art"]

/-- `VALID_STATUSES` from `DataTable/index.tsx`. -/
def VALID_STATUSES : List String :=
  ["active", "graduated", "suspended"]

/-- Character class of the name pattern
`/^[A-Za-zА-Яа-яЁё\s\-']{2,50}$/`: Latin or Cyrillic letters, whitespace,
hyphen, apostrophe. -/
def isNameChar (c : Char) : Bool :=
  (('A' ≤ c ∧ c ≤ 'Z') ∨ ('a' ≤ c ∧ c ≤ 'z') ∨
   ('А' ≤ c ∧ c ≤ 'я') ∨ c = 'Ё' ∨ c = 'ё' ∨
   c.isWhitespace ∨ c = '-' ∨ c.toNat = 39)

/-- The name pattern `/^[A-Za-zА-Яа-яЁё\s\-']{2,50}$/`. -/
def namePattern (s : String) : Bool :=
  2 ≤ s.data.length ∧ s.data.length ≤ 50 ∧ s.data.all isNameChar

/-- The custom name rule: at least two space-separated tokens
(`value.trim().split(' ').length >= 2`). -/
def nameCustom (s : String) : Bool :=
  2 ≤ (splitOnChar ' ' (jsTrimChars s.data)).length

/-- Character class `[^\s@]`: neither whitespace nor `@`. -/
def isEmailChar (c : Char) : Bool :=
  ¬ c.isWhitespace ∧ c ≠ '@'

/-- The email pattern `/^[^\s@]+@[^\s@]+\.[^\s@]+$/`: a non-empty local
part, one `@`, and a domain containing a dot that has at least one
character before and after it. -/
def emailPattern (s : String) : Bool :=
  match splitOnChar '@' s.data with
  | [lp, dom] =>
    (¬ lp.isEmpty) ∧ lp.all isEmailChar ∧
    (¬ dom.isEmpty) ∧ dom.all isEmailChar ∧
    ((dom.drop 1).dropLast).contains '.'
  | _ => false

/-- Character class `[\d\s\-\(\)]`: digit, whitespace, hyphen or
parenthesis. -/
def isPhoneChar (c : Char) : Bool :=
  c.isDigit ∨ c.isWhitespace ∨ c = '-' ∨ c = '(' ∨ c = ')'

/-- The characters a phone pattern match spans after its optional leading
`+` (`+` is not in the repeated class, so the optional match is forced). -/
def phoneBody (cs : List Char) : List Char :=
  match cs with
  | c :: rest => if c = '+' then rest else c :: rest
  | [] => []

/-- The phone pattern `/^\+?[\d\s\-\(\)]{10,15}$/`: optional leading `+`,
then 10–15 characters of digits or separators. -/
def phonePattern (s : String) : Bool :=
  10 ≤ (phoneBody s.data).length ∧ (phoneBody s.data).length ≤ 15
    ∧ (phoneBody s.data).all isPhoneChar

/-- One per-column validation rule (the `ValidationRule` type). -/
structure ValidationRule where
  pattern : Option (String → Bool) := none
  min : Option Int := none
  max : Option Int := none
  required : Bool := false
  enum : Option (List String) := none
  custom : Option (String → Bool) := none

/-- The `validationRules` table of `DataTable/index.tsx`. -/
def validationRules : String → Option ValidationRule
  | "name" => some { required := true, pattern := some namePattern, custom := some nameCustom }
  | "age" => some { required := true, min := some 16, max := some 100 }
  | "grade" => some { required := true, min := some 0, max := some 100 }
  | "email" => some { required := true, pattern := some emailPattern }
  | "phone" => some { required := true, pattern := some phonePattern }
  | "major" => some { required := true, enum := some VALID_MAJORS }
  | "status" => some { required := true, enum := some VALID_STATUSES }
  | _ => none

/-- `errorMessages[field].required`. -/
def errorRequired : String → Option String
  | "name" => some "Name is required"
  | "age" => some "Age is required"
  | "grade" => some "Grade is required"
  | "email" => some "Email is required"
  | "phone" => some "Phone is required"
  | "major" => some "Major is required"
  | "status" => some "Status is required"
  | _ => none

/-- `errorMessages[field].pattern`. -/
def errorPattern : String → Option String
  | "name" => some "Name must contain only letters, spaces, hyphens and apostrophes"
  | "email" => some "Please enter a valid email address"
  | "phone" => some "Please enter a valid phone number (10-15 digits)"
  | _ => none

/-- `errorMessages[field].min`. -/
def errorMin : String → Option String
  | "age" => some "Age must be at least 16"
  | "grade" => some "Grade cannot be negative"
  | _ => none

/-- `errorMessages[field].max`. -/
def errorMax : String → Option String
  | "age" => some "Age cannot exceed 100"
  | "grade" => some "Grade cannot exceed 100"
  | _ => none

/-- `errorMessages[field].enum`. -/
def errorEnum : String → Option String
  | "major" => some "Please select a valid major"
  | "status" => some "Status must be: active, graduated, or suspended"
  | _ => none

/-- `errorMessages[field].custom`. -/
def errorCustom : String → Option String
  | "name" => some "Please enter both first and last name"
  | _ => none

/-- Message used for a failed `required` check
(`errorMsg || 'This field is required'`). -/
def msgRequired (field : String) : String :=
  (errorRequired field).getD "This field is required"

/-- Message used for a failed `enum` check. -/
def msgEnum (field : String) : String :=
  (errorEnum field).getD "Please select a valid value"

/-- Message used for a failed `pattern` check. -/
def msgPattern (field : String) : String :=
  (errorPattern field).getD "Invalid format"

/-- Message used for a failed `min` check
(the template fallback is only reached for fields without a message). -/
def msgMin (field : String) (m : Int) : String :=
  (errorMin field).getD ("Value must be at least " ++ String.mk (intChars m))

/-- Message used for a failed `max` check. -/
def msgMax (field : String) (m : Int) : String :=
  (errorMax field).getD ("Value cannot exceed " ++ String.mk (intChars m))

/-- Message used for a failed `custom` check. -/
def msgCustom (field : String) : String :=
  (errorCustom field).getD "Invalid value"

/-- The trailing `custom` check of `validateValue`. -/
def customCheck (rules : ValidationRule) (field t : String) : Option VError :=
  match rules.custom with
  | some f => if ¬ f t then some ⟨field, msgCustom field⟩ else none
  | none => none

/-- The numeric bound checks of `validateValue`: only applied when
`parseFloat` of the trimmed value is a number (`!isNaN(numValue)`). -/
def numChecks (rules : ValidationRule) (field t : String) : Option VError :=
  match jsParseFloat t with
  | some q =>
    match rules.min with
    | some m =>
      if q.ltInt m then some ⟨field, msgMin field m⟩
      else
        match rules.max with
        | some mx => if q.gtInt mx then some ⟨field, msgMax field mx⟩ else customCheck rules field t
        | none => customCheck rules field t
    | none =>
      match rules.max with
      | some mx => if q.gtInt mx then some ⟨field, msgMax field mx⟩ else customCheck rules field t
      | none => customCheck rules field t
  | none => customCheck rules field t

/-- `validateValue(field, value)` of `DataTable/index.tsx`: `none` is a
pass, `some e` carries the per-field message of the first failing check
(required, enum, pattern, numeric bounds, custom — in source order). -/
def validateValue (field value : String) : Option VError :=
  match validationRules field with
  | none => none
  | some rules =>
    if rules.required ∧ jsTrim value = "" then some ⟨field, msgRequired field⟩
    else
      match rules.enum with
      | some vs =>
        if ¬ vs.contains (jsTrim value) then some ⟨field, msgEnum field⟩
        else numChecks rules field (jsTrim value)
      | none =>
        match rules.pattern with
        | some p =>
          if ¬ p (jsTrim value) then some ⟨field, msgPattern field⟩
          else numChecks rules field (jsTrim value)
        | none => numChecks rules field (jsTrim value)

/-! ## The standalone validators of `src/utils/validation.ts` -/

/-- `validateEmail` from `utils/validation.ts`. -/
def validateEmail (email : String) : Bool :=
  emailPattern email

/-- `validateAge` from `utils/validation.ts`; `none` models `NaN`, for
which both comparisons are false. -/
def validateAge (age : Option DecNum) : Bool :=
  match age with
  | some q => ¬ q.ltInt 16 ∧ ¬ q.gtInt 100
  | none => false

/-- `validateGrade` from `utils/validation.ts`. -/
def validateGrade (grade : Option DecNum) : Bool :=
  match grade with
  | some q => ¬ q.ltInt 0 ∧ ¬ q.gtInt 100
  | none => false

/-- `validatePhone` from `utils/validation.ts`: strip spaces, hyphens and
parentheses, then match `/^[\+]?[1-9][\d]{0,15}$/`. -/
def validatePhone (phone : String) : Bool :=
  let stripped := phone.data.filter
    (fun c => ¬ (c = ' ' ∨ c = '-' ∨ c = '(' ∨ c = ')'))
  let body := match stripped with
    | '+' :: rest => rest
    | cs => cs
  match body with
  | [] => false
  | c :: rest => ('1' ≤ c ∧ c ≤ '9') ∧ rest.length ≤ 15 ∧ rest.all Char.isDigit

/-- `getValidationMessage(field, value)` from `utils/validation.ts`:
returns `""` when the field passes its check. -/
def getValidationMessage (field value : String) : String :=
  match field with
  | "email" => if ¬ validateEmail value then "Please enter a valid email address" else ""
  | "age" => if ¬ validateAge (jsNumber value) then "Age must be between 16 and 100" else ""
  | "grade" => if ¬ validateGrade (jsNumber value) then "Grade must be between 0 and 100" else ""
  | "phone" => if ¬ validatePhone value then "Please enter a valid phone number" else ""
  | _ => ""

/-! ## Inline editing (`DataTable/index.tsx` lines 116–308)

The component state relevant to editing, and the `saveEdit` transition.
React `useState` setters are modelled as a single state record updated
atomically by each handler. -/

/-- The slice of `DataTable` component state that editing touches. -/
structure EditState where
  data : List Student
  editingCell : Option FocusedCell
  editValue : String
  validationErrors : List VError
  focusedCell : Option FocusedCell
deriving DecidableEq

/-- `convertValue(columnId, value)`: integer columns are converted with
`parseInt(value) || 0` (an unparsable string yields `0`); all other
columns keep the raw string. -/
def convertValue (columnId : String) (value : String) : CellValue :=
  match columnId with
  | "age" => .num ((jsParseInt value).getD 0)
  | "grade" => .num ((jsParseInt value).getD 0)
  | _ => .str value

/-- The spread-update `{ ...row, [columnId]: v }` writing a converted value
into the named field of a record.  The `saveEdit` caller only produces
type-correct combinations; any other combination leaves the record
unchanged. -/
def setField (row : Student) (columnId : String) (v : CellValue) : Student :=
  match columnId, v with
  | "name", .str s => { row with name := s }
  | "age", .num n => { row with age := n }
  | "grade", .num n => { row with grade := n }
  | "email", .str s => { row with email := s }
  | "phone", .str s => { row with phone := s }
  | "major", .str s => { row with major := s }
  | "status", .str s => { row with status := s }
  | _, _ => row

/-- `saveEdit()`: with no active edit cursor, a no-op.  Otherwise validate
the staged value; on failure record the error (replacing any prior error
for that column) and keep the cursor; on success write the converted value
into the record matching the cursor's row id, close the cursor, clear the
staged value and that column's errors, and move focus to the cell. -/
def saveEdit (st : EditState) : EditState :=
  match st.editingCell with
  | none => st
  | some cell =>
    match validateValue cell.columnId st.editValue with
    | some err =>
      { st with validationErrors :=
          st.validationErrors.filter (fun e => e.field ≠ cell.columnId) ++ [err] }
    | none =>
      { st with
        data := st.data.map (fun row =>
          if row.id = cell.rowId then
            setField row cell.columnId (convertValue cell.columnId st.editValue)
          else row),
        editingCell := none,
        editValue := "",
        validationErrors := st.validationErrors.filter (fun e => e.field ≠ cell.columnId),
        focusedCell := some cell }

/-- `cancelEdit()`: close the cursor, clear the staged value and all
validation errors; the record set is untouched. -/
def cancelEdit (st : EditState) : EditState :=
  { st with editingCell := none, editValue := "", validationErrors := [] }

/-- `getCellError(rowId, columnId)`: the first error recorded for the
column, visible only while that cell is the active edit cursor. -/
def getCellError (st : EditState) (rowId columnId : String) : Option VError :=
  if st.editingCell = some ⟨rowId, columnId⟩ then
    st.validationErrors.find? (fun e => e.field = columnId)
  else none

/-! ## Sorting state handlers (`DataTable/index.tsx` lines 310–337) -/

/-- `handleColumnSort(columnId)`: if a rule for the column exists, flip its
direction in place; otherwise append an ascending rule with lowest
priority. -/
def handleColumnSort (columnId : String) : List SortRule → List SortRule
  | [] => [⟨columnId, false⟩]
  | r :: rs =>
    if r.id = columnId then ⟨r.id, ¬ r.desc⟩ :: rs
    else r :: handleColumnSort columnId rs

/-- `clearAllSorting()`. -/
def clearAllSorting : List SortRule := []

/-- `removeColumnSort(columnId)`: drop the rule for one column. -/
def removeColumnSort (columnId : String) (sorting : List SortRule) : List SortRule :=
  sorting.filter (fun r => r.id ≠ columnId)

/-! ## Status filter (`DataTable/index.tsx` lines 125, 339–395) -/

/-- The initial `selectedStatus` state: all three statuses. -/
def initialSelectedStatus : List String :=
  ["active", "graduated", "suspended"]

/-- `handleStatusFilterChange(status)`: toggle a status out of or into the
inclusion list, refusing to remove the last remaining entry. -/
def handleStatusFilterChange (status : String) (prev : List String) : List String :=
  if prev.contains status then
    if prev.length = 1 then prev
    else prev.filter (fun s => s ≠ status)
  else prev ++ [status]

/-- `selectAllStatuses()`. -/
def selectAllStatuses : List String :=
  ["active", "graduated", "suspended"]

/-- The `selectedStatus` part of `clearAllFilters()`. -/
def clearAllFiltersStatus : List String :=
  ["active", "graduated", "suspended"]

/-- The user-driven operations that touch `selectedStatus`. -/
inductive StatusOp where
  | toggle (status : String)
  | selectAll
  | clearFilters

/-- One step of `selectedStatus` evolution. -/
def statusStep (prev : List String) : StatusOp → List String
  | .toggle s => handleStatusFilterChange s prev
  | .selectAll => selectAllStatuses
  | .clearFilters => clearAllFiltersStatus

/-- `statusFilterFn(row, columnId, filterValue)`, the custom filter
attached to the `status` column (`columnId` is therefore always
`"status"` and `row.getValue(columnId)` is the record's status): an empty
or missing inclusion list passes every row, otherwise the row passes when
its status is listed. -/
def statusFilterFn (row : Student) (filterValue : List String) : Bool :=
  if filterValue.isEmpty then true
  else filterValue.contains row.status

/-! ## CSV export (`DataTable/index.tsx` lines 420–451) -/

/-- `String.prototype.replace(/"/g, '""')`: double every quote. -/
def escapeQuotes : List Char → List Char
  | [] => []
  | c :: cs => if c = '"' then '"' :: '"' :: escapeQuotes cs else c :: escapeQuotes cs

/-- The template `` `"${s.replace(/"/g, '""')}"` ``: a quoted CSV field. -/
def quoteField (s : List Char) : List Char :=
  '"' :: (escapeQuotes s ++ ['"'])

/-- The header labels of the export. -/
def csvHeaders : List String :=
  ["ID", "Name", "Age", "Grade", "Email", "Phone", "Major", "Status"]

/-- The internal field identifiers (the `accessorKey`s) of the exported
columns. -/
def csvFieldIds : List String :=
  ["id", "name", "age", "grade", "email", "phone", "major", "status"]

/-- One exported data line: `[id, "name", age, grade, "email", "phone",
"major", status].join(',')` with `name`, `email`, `phone` and `major`
quote-escaped and the rest interpolated raw. -/
def csvRowLine (row : Student) : List Char :=
  row.id.data ++ ',' ::
  (quoteField row.name.data ++ ',' ::
  (intChars row.age ++ ',' ::
  (intChars row.grade ++ ',' ::
  (quoteField row.email.data ++ ',' ::
  (quoteField row.phone.data ++ ',' ::
  (quoteField row.major.data ++ ',' ::
  row.status.data))))))

/-- The header line `headers.join(',')`. -/
def csvHeaderLine : List Char :=
  "ID,Name,Age,Grade,Email,Phone,Major,Status".data

/-- The full `csvContent`: header line and one line per exported row,
joined by `'\n'`. -/
def csvContentChars (rows : List Student) : List Char :=
  csvHeaderLine ++ rows.foldr (fun r acc => '\n' :: (csvRowLine r ++ acc)) []

/-- `exportToCSV` restricted to its pure serialisation core: the text of
the generated file for a given row sequence (already selected/filtered by
the caller). -/
def exportToCSV (rows : List Student) : String :=
  String.mk (csvContentChars rows)

/-! ## A conforming CSV reader

Standard CSV parsing (RFC 4180 escaping): fields separated by commas,
records by newlines, quoted fields may contain separators and doubled
quotes.  Used to state the export round-trip property. -/

mutual

/-- Scanner state inside a quoted field: a doubled quote is a literal
quote, a lone quote closes the field. -/
def csvScanQuoted (field : List Char) (fields : List (List Char))
    (recs : List (List (List Char))) : List Char → List (List (List Char))
  | [] => recs ++ [fields ++ [field]]
  | c :: rest =>
    if c = '"' then
      match rest with
      | [] => recs ++ [fields ++ [field]]
      | c2 :: rest2 =>
        if c2 = '"' then csvScanQuoted (field ++ ['"']) fields recs rest2
        else csvScanPlain field fields recs (c2 :: rest2)
    else csvScanQuoted (field ++ [c]) fields recs rest

/-- Scanner state outside quotes: a comma ends the field, a newline ends
the record, a quote opens a quoted section. -/
def csvScanPlain (field : List Char) (fields : List (List Char))
    (recs : List (List (List Char))) : List Char → List (List (List Char))
  | [] => recs ++ [fields ++ [field]]
  | c :: rest =>
    if c = ',' then csvScanPlain [] (fields ++ [field]) recs rest
    else if c = '\n' then csvScanPlain [] [] (recs ++ [fields ++ [field]]) rest
    else if c = '"' then csvScanQuoted field fields recs rest
    else csvScanPlain (field ++ [c]) fields recs rest

end

/-- A conforming CSV reader: the list of records (each a list of fields)
of a CSV document.  The empty document has no records. -/
def csvParse (s : String) : List (List (List Char)) :=
  if s.data.isEmpty then [] else csvScanPlain [] [] [] s.data

/-! ## Persisted settings (`src/hooks/useTableSettings.ts`)

The hook's initialiser reads `localStorage.getItem('tableSettings')` and,
when a value is present, feeds it to `JSON.parse` with no exception
handling; only an absent key falls back to the defaults.  `JSON.parse` is
modelled as a fuel-driven recursive-descent parser of the JSON grammar
(strings support the standard escapes; `\uXXXX` yields the coded
character). -/

/-- A parsed JSON value. -/
inductive Json where
  | null
  | bool (b : Bool)
  | num (v : DecNum)
  | str (s : String)
  | arr (items : List Json)
  | obj (entries : List (String × Json))

/-- JSON insignificant whitespace. -/
def jsonSkipWs (cs : List Char) : List Char :=
  cs.dropWhile (fun c => c = ' ' ∨ c = '\t' ∨ c = '\n' ∨ c = '\r')

/-- Value of a hexadecimal digit, 0 for non-hex characters (the parser
rejects non-hex separately). -/
def hexVal (c : Char) : Nat :=
  if '0' ≤ c ∧ c ≤ '9' then c.toNat - 48
  else if 'a' ≤ c ∧ c ≤ 'f' then c.toNat - 87
  else if 'A' ≤ c ∧ c ≤ 'F' then c.toNat - 55
  else 0

/-- Whether a character is a hexadecimal digit. -/
def isHexDigit (c : Char) : Bool :=
  ('0' ≤ c ∧ c ≤ '9') ∨ ('a' ≤ c ∧ c ≤ 'f') ∨ ('A' ≤ c ∧ c ≤ 'F')

/-- Body of a JSON string literal after the opening quote: returns the
decoded characters and the input following the closing quote. -/
def jsonStringBody : Nat → List Char → Option (List Char × List Char)
  | 0, _ => none
  | _, [] => none
  | fuel + 1, c :: rest =>
    if c = '"' then some ([], rest)
    else if c = '\\' then
      match rest with
      | [] => none
      | e :: rest2 =>
        if e = 'u' then
          match rest2 with
          | h1 :: h2 :: h3 :: h4 :: rest3 =>
            if isHexDigit h1 ∧ isHexDigit h2 ∧ isHexDigit h3 ∧ isHexDigit h4 then
              match jsonStringBody fuel rest3 with
              | some (s, rem) =>
                some (Char.ofNat (((hexVal h1 * 16 + hexVal h2) * 16 + hexVal h3) * 16 + hexVal h4) :: s, rem)
              | none => none
            else none
          | _ => none
        else
          let dec : Option Char :=
            if e = '"' then some '"'
            else if e = '\\' then some '\\'
            else if e = '/' then some '/'
            else if e = 'b' then some (Char.ofNat 8)
            else if e = 'f' then some (Char.ofNat 12)
            else if e = 'n' then some '\n'
            else if e = 'r' then some '\r'
            else if e = 't' then some '\t'
            else none
          match dec with
          | some d =>
            match jsonStringBody fuel rest2 with
            | some (s, rem) => some (d :: s, rem)
            | none => none
          | none => none
    else
      match jsonStringBody fuel rest with
      | some (s, rem) => some (c :: s, rem)
      | none => none

/-- A JSON number starting at the input head: optional minus, integer part
(no leading zeros rule is not enforced — `JSON.parse` accepts `-0`,
and the loader never inspects numbers), optional fraction, optional
exponent. -/
def jsonNumberLit (cs : List Char) : Option (DecNum × List Char) :=
  let (sgn, cs1) :=
    match cs with
    | '-' :: rest => ((-1 : Int), rest)
    | _ => ((1 : Int), cs)
  let ip := cs1.takeWhile Char.isDigit
  let r1 := cs1.dropWhile Char.isDigit
  if ip.isEmpty then none
  else
    let (fp, r2) :=
      match r1 with
      | '.' :: r => (r.takeWhile Char.isDigit, r.dropWhile Char.isDigit)
      | _ => ([], r1)
    let mant : DecNum :=
      ⟨sgn * ((digitsToNat ip * 10 ^ fp.length + digitsToNat fp : Nat) : Int), fp.length⟩
    match r2 with
    | c :: r =>
      if c = 'e' ∨ c = 'E' then
        let (esgn, r3) :=
          match r with
          | '-' :: rr => ((-1 : Int), rr)
          | '+' :: rr => ((1 : Int), rr)
          | _ => ((1 : Int), r)
        let ed := r3.takeWhile Char.isDigit
        if ed.isEmpty then none
        else some (mant.scale (esgn * (digitsToNat ed : Int)), r3.dropWhile Char.isDigit)
      else some (mant, r2)
    | [] => some (mant, [])

mutual

/-- One JSON value at the input head (leading whitespace already
skipped). -/
def jsonValue : Nat → List Char → Option (Json × List Char)
  | 0, _ => none
  | _, [] => none
  | fuel + 1, c :: rest =>
    if c = '"' then
      match jsonStringBody (rest.length + 1) rest with
      | some (s, rem) => some (.str (String.mk s), rem)
      | none => none
    else if c = '[' then
      let rest1 := jsonSkipWs rest
      match rest1 with
      | ']' :: rem => some (.arr [], rem)
      | _ =>
        match jsonArrayItems fuel rest1 with
        | some (items, rem) => some (.arr items, rem)
        | none => none
    else if c.toNat = 123 then
      let rest1 := jsonSkipWs rest
      match rest1 with
      | c1 :: rem =>
        if c1.toNat = 125 then some (.obj [], rem)
        else
          match jsonObjectItems fuel rest1 with
          | some (entries, rem2) => some (.obj entries, rem2)
          | none => none
      | [] => none
    else if c = 't' then
      match rest with
      | 'r' :: 'u' :: 'e' :: rem => some (.bool true, rem)
      | _ => none
    else if c = 'f' then
      match rest with
      | 'a' :: 'l' :: 's' :: 'e' :: rem => some (.bool false, rem)
      | _ => none
    else if c = 'n' then
      match rest with
      | 'u' :: 'l' :: 'l' :: rem => some (.null, rem)
      | _ => none
    else
      match jsonNumberLit (c :: rest) with
      | some (v, rem) => some (.num v, rem)
      | none => none

/-- Comma-separated JSON values up to the closing bracket. -/
def jsonArrayItems : Nat → List Char → Option (List Json × List Char)
  | 0, _ => none
  | fuel + 1, cs =>
    match jsonValue fuel (jsonSkipWs cs) with
    | some (v, rem) =>
      match jsonSkipWs rem with
      | ',' :: rem2 =>
        match jsonArrayItems fuel rem2 with
        | some (items, rem3) => some (v :: items, rem3)
        | none => none
      | ']' :: rem2 => some ([v], rem2)
      | _ => none
    | none => none

/-- Comma-separated `"key": value` pairs up to the closing brace. -/
def jsonObjectItems : Nat → List Char → Option (List (String × Json) × List Char)
  | 0, _ => none
  | fuel + 1, cs =>
    match jsonSkipWs cs with
    | c :: rest =>
      if c = '"' then
        match jsonStringBody (rest.length + 1) rest with
        | some (k, rem) =>
          match jsonSkipWs rem with
          | ':' :: rem2 =>
            match jsonValue fuel (jsonSkipWs rem2) with
            | some (v, rem3) =>
              match jsonSkipWs rem3 with
              | ',' :: rem4 =>
                match jsonObjectItems fuel rem4 with
                | some (entries, rem5) => some ((String.mk k, v) :: entries, rem5)
                | none => none
              | c2 :: rem4 =>
                if c2.toNat = 125 then some ([(String.mk k, v)], rem4) else none
              | [] => none
            | none => none
          | _ => none
        | none => none
      else none
    | [] => none

end

/-- `JSON.parse(s)`: parse one JSON value with nothing but whitespace
around it; `none` models a thrown `SyntaxError`. -/
def jsonParse (s : String) : Option Json :=
  match jsonValue (s.data.length + 1) (jsonSkipWs s.data) with
  | some (v, rem) => if (jsonSkipWs rem).isEmpty then some v else none
  | none => none

/-- The literal default settings object of `useTableSettings`:
`{ columnVisibility: {}, pageSize: 10, sorting: [] }`. -/
def defaultTableSettings : Json :=
  .obj [("columnVisibility", .obj []), ("pageSize", .num ⟨10, 0⟩), ("sorting", .arr [])]

/-- The `useState` initialiser of `useTableSettings`, applied to the
persisted text (`none` = key absent).  `Except.error` models an uncaught
exception escaping the initialiser: the source calls `JSON.parse(saved)`
with no `try`/`catch`, so malformed text throws. -/
def useTableSettings (saved : Option String) : Except String Json :=
  match saved with
  | none => .ok defaultTableSettings
  | some text =>
    match jsonParse text with
    | some v => .ok v
    | none => .error "SyntaxError: JSON.parse"

/-! ## The sorted row model

The sorted row sequence itself is produced by `useReactTable`'s
`getSortedRowModel()` — third-party library code, not part of this
repository's sources.  Modelled from the spec: a multi-key **stable**
sort; the Sort Rules are applied in priority order, each key compared by
its field's natural ordering (lexicographic for text fields, numeric for
integer fields), with the rule's direction applied per key. -/

/-- Natural ordering of one sortable column's values on two records:
lexicographic on text fields, numeric on `age`/`grade`; columns that
cannot be sorted (`id`, `select`) and unknown columns compare equal. -/
def cmpField (columnId : String) (a b : Student) : Ordering :=
  match columnId with
  | "name" => compare a.name b.name
  | "age" => compare a.age b.age
  | "grade" => compare a.grade b.grade
  | "email" => compare a.email b.email
  | "phone" => compare a.phone b.phone
  | "major" => compare a.major b.major
  | "status" => compare a.status b.status
  | _ => .eq

/-- One sort rule's comparison, direction applied. -/
def cmpRule (r : SortRule) (a b : Student) : Ordering :=
  if r.desc then (cmpField r.id a b).swap else cmpField r.id a b

/-- Multi-key comparison: the first rule in priority order that
distinguishes the records decides. -/
def cmpRows (rules : List SortRule) (a b : Student) : Ordering :=
  match rules with
  | [] => .eq
  | r :: rs => (cmpRule r a b).then (cmpRows rs a b)

/-- The "sorts before or ties" relation on position-tagged records used by
the stable sort (tags break no ties — stability keeps input order). -/
def tagLe (rules : List SortRule) (a b : Nat × Student) : Prop :=
  cmpRows rules a.2 b.2 ≠ Ordering.gt

instance (rules : List SortRule) : DecidableRel (tagLe rules) :=
  fun a b => by unfold tagLe; infer_instance

/-- The stable multi-key sort on position-tagged records. -/
def sortTagged (rules : List SortRule) (records : List Student) :
    List (Nat × Student) :=
  records.enum.insertionSort (tagLe rules)

/-- The sorted row sequence of `derive()`: stable multi-key sort of the
record set. -/
def sortedRows (rules : List SortRule) (records : List Student) : List Student :=
  (sortTagged rules records).map Prod.snd

/-! ## Example records used by concrete witnesses -/

/-- A concrete student record (ids and values in the generator's shape). -/
def exStudentA : Student :=
  ⟨"STU001", "Alex Smith", 30, 90, "student1@university.edu",
   "+1 (555) 111-2222", "Physics", "2020-01-10", "2024-06-01", "active"⟩

/-- A second concrete student record. -/
def exStudentB : Student :=
  ⟨"STU002", "Bella Jones", 20, 80, "student2@university.edu",
   "+1 (555) 111-2223", "Art", "2021-02-10", "2025-06-01", "graduated"⟩

/-- A third concrete student record, tying with `exStudentB` on age. -/
def exStudentC : Student :=
  ⟨"STU003", "Carol Davis", 20, 70, "student3@university.edu",
   "+1 (555) 111-2224", "History", "2022-03-10", "2026-06-01", "suspended"⟩

/-- The concrete edit state used by the commit witnesses: editing the
`age` cell of the only record. -/
def exEditCell : FocusedCell := ⟨"STU001", "age"⟩

/-- Concrete edit state with a staged value below the age minimum. -/
def exEditStateBad : EditState :=
  { data := [exStudentA], editingCell := some exEditCell, editValue := "15",
    validationErrors := [], focusedCell := none }

/-- Concrete edit state staging the unparsable string `abc` for `age`
(which the live validator accepts, see C4). -/
def exEditStateConv : EditState :=
  { data := [exStudentA], editingCell := some exEditCell, editValue := "abc",
    validationErrors := [], focusedCell := none }

/-- The amended acceptance condition, stated independently of the pattern
implementation: the trimmed raw string is an optional leading `+` followed
by characters that are each a digit or a separator (whitespace, hyphen,
parenthesis), and the **total count of those characters — digits and
separators together —** lies within [10, 15]. -/
def phoneSpecOk (t : List Char) : Prop :=
  ∃ body : List Char,
    (t = body ∨ t = '+' :: body)
    ∧ (∀ c ∈ body, c.isDigit ∨ c.isWhitespace ∨ c = '-' ∨ c = '(' ∨ c = ')')
    ∧ 10 ≤ body.length ∧ body.length ≤ 15

/-- Characters that an unquoted CSV field may safely contain. -/
def CleanChars (l : List Char) : Prop :=
  ∀ c ∈ l, c ≠ ',' ∧ c ≠ '\n' ∧ c ≠ '"'

instance (l : List Char) : Decidable (CleanChars l) := by
  unfold CleanChars
  infer_instance

/-- The field values of one exported row, in export column order (numbers
stringified). -/
def csvRowFields (r : Student) : List (List Char) :=
  [r.id.data, r.name.data, intChars r.age, intChars r.grade,
   r.email.data, r.phone.data, r.major.data, r.status.data]

/-- A record whose id contains the delimiter, exported unquoted. -/
def exStudentBadId : Student :=
  ⟨"a,b", "Nina North", 20, 80, "n@u.edu", "+1 (555) 111-2299", "Art",
   "2020-01-01", "2024-06-01", "active"⟩

/-! ## C1 — the sort-toggle cycle -/

/-- C1, counterexample: applying `toggleSort('age')` three times to the
empty Sort Rules does **not** return them to their original state — the
field ends ascending, because `handleColumnSort` only ever flips the
direction of an existing rule and never removes it (removal is a separate
control, `removeColumnSort`). -/
theorem toggleSort_three_times_not_identity :
    handleColumnSort "age" (handleColumnSort "age" (handleColumnSort "age" [])) =
      [⟨"age", false⟩]
    ∧ handleColumnSort "age" (handleColumnSort "age" (handleColumnSort "age" [])) ≠
      ([] : List SortRule) := by
  decide

/-- `handleColumnSort` on rules not mentioning the column appends an
ascending rule. -/
theorem handleColumnSort_absent (c : String) (d : Bool) :
    ∀ prev : List SortRule, c ∉ prev.map SortRule.id →
      handleColumnSort c (prev ++ [⟨c, d⟩]) = prev ++ [⟨c, !d⟩] := by
  intro prev
  induction prev with
  | nil => intro _; simp [handleColumnSort]
  | cons r rs ih =>
    intro h
    simp only [List.map_cons, List.mem_cons] at h
    push_neg at h
    have hne : ¬ (r.id = c) := fun hc => h.1 hc.symm
    simp only [List.cons_append, handleColumnSort, if_neg hne, List.append_eq, ih h.2]

/-- `handleColumnSort` on rules not mentioning the column appends an
ascending rule (first application). -/
theorem handleColumnSort_absent_append (c : String) :
    ∀ prev : List SortRule, c ∉ prev.map SortRule.id →
      handleColumnSort c prev = prev ++ [⟨c, false⟩] := by
  intro prev
  induction prev with
  | nil => intro _; simp [handleColumnSort]
  | cons r rs ih =>
    intro h
    simp only [List.map_cons, List.mem_cons] at h
    push_neg at h
    have hne : ¬ (r.id = c) := fun hc => h.1 hc.symm
    simp only [handleColumnSort, if_neg hne, List.append_eq, ih h.2, List.cons_append]

/-- C1, amended: for a field `f` absent from the Sort Rules, the actual
cycle of `toggleSort(f)` is *absent → ascending → descending → ascending*:
the first application appends an ascending rule with lowest priority, each
further application flips its direction in place, and a rule that is
descending is flipped back to ascending — never removed.  Three
applications therefore leave the field sorted ascending, not absent. -/
theorem toggleSort_cycle (prev : List SortRule) (c : String)
    (h : c ∉ prev.map SortRule.id) :
    handleColumnSort c prev = prev ++ [⟨c, false⟩]
    ∧ handleColumnSort c (handleColumnSort c prev) = prev ++ [⟨c, true⟩]
    ∧ handleColumnSort c (handleColumnSort c (handleColumnSort c prev)) =
        prev ++ [⟨c, false⟩] := by
  have h1 := handleColumnSort_absent_append c prev h
  have h2 := handleColumnSort_absent c false prev h
  have h3 := handleColumnSort_absent c true prev h
  simp only [Bool.not_false, Bool.not_true] at h2 h3
  exact ⟨h1, by rw [h1, h2], by rw [h1, h2, h3]⟩

/-- Witness for `toggleSort_cycle` at a concrete state: one existing rule
on `name`, toggling `age` three times. -/
theorem toggleSort_cycle_witness :
    "age" ∉ ([⟨"name", false⟩] : List SortRule).map SortRule.id
    ∧ (handleColumnSort "age" [⟨"name", false⟩] =
        [⟨"name", false⟩, ⟨"age", false⟩]
      ∧ handleColumnSort "age" (handleColumnSort "age" [⟨"name", false⟩]) =
        [⟨"name", false⟩, ⟨"age", true⟩]
      ∧ handleColumnSort "age"
          (handleColumnSort "age" (handleColumnSort "age" [⟨"name", false⟩])) =
        [⟨"name", false⟩, ⟨"age", false⟩]) :=
  ⟨by decide, toggleSort_cycle [⟨"name", false⟩] "age" (by decide)⟩

/-! ## C4 — unparsable input for bounded integer fields -/

/-- C4: the live validator accepts a raw string that does not parse as a
number for the bounded `age` field — `parseFloat('abc')` is `NaN`, the
bound checks are skipped, and no rule fails — while the repository's own
`getValidationMessage` (`utils/validation.ts`) rejects the same input with
the bound message, and a commit would then write the sanitised value `0`,
far below the documented minimum of 16.  The code contradicts the spec
(and its own utility validator). -/
theorem validate_age_unparsable_accepted :
    validateValue "age" "abc" = none
    ∧ convertValue "age" "abc" = .num 0
    ∧ getValidationMessage "age" "abc" = "Age must be between 16 and 100"
    ∧ validateValue "grade" "abc" = none := by
  decide

/-! ## C6 — the empty status inclusion set -/

/-- C6, counterexample: with an empty inclusion list the status filter
**passes** every row — here a concrete active student — rather than
excluding all rows as claimed. -/
theorem statusFilter_empty_passes_row :
    statusFilterFn exStudentA [] = true := by
  decide

/-- C6, amended: an empty inclusion list for the categorical status field
makes the filter pass every row — it is treated exactly like the
no-filter state, not as "exclude all rows"; a row is excluded only by a
non-empty list not containing its status. -/
theorem statusFilter_empty_means_no_filter (row : Student) (filterValue : List String) :
    statusFilterFn row filterValue = true ↔
      (filterValue = [] ∨ row.status ∈ filterValue) := by
  unfold statusFilterFn
  rcases filterValue with _ | ⟨v, vs⟩ <;> simp

/-! ## C8 — loading persisted settings -/

/-- C8: the settings initialiser falls back to the defaults only when the
persisted key is **absent**; persisted text that is not valid JSON (here
the single character `{`) is fed to `JSON.parse` with no exception
handler, so loading throws instead of recovering to the defaults. -/
theorem tableSettings_malformed_throws :
    useTableSettings none = .ok defaultTableSettings
    ∧ (useTableSettings (some "\x7b")).isOk = false := by
  refine ⟨rfl, by decide⟩

/-! ## C3 / C5 — committing an edit -/

/-- `msgRequired` never produces an empty message. -/
theorem msgRequired_ne (f : String) : msgRequired f ≠ "" := by
  unfold msgRequired errorRequired
  split <;> simp

/-- `msgEnum` never produces an empty message. -/
theorem msgEnum_ne (f : String) : msgEnum f ≠ "" := by
  unfold msgEnum errorEnum
  split <;> simp

/-- `msgPattern` never produces an empty message. -/
theorem msgPattern_ne (f : String) : msgPattern f ≠ "" := by
  unfold msgPattern errorPattern
  split <;> simp

/-- `msgCustom` never produces an empty message. -/
theorem msgCustom_ne (f : String) : msgCustom f ≠ "" := by
  unfold msgCustom errorCustom
  split <;> simp

/-- The fallback bound message is non-empty for every bound. -/
theorem boundFallback_ne (pre : String) (m : Int) (hpre : 0 < pre.length) :
    pre ++ String.mk (intChars m) ≠ "" := by
  intro hcontra
  have hlen := congrArg String.length hcontra
  rw [String.length_append] at hlen
  have h0 : ("" : String).length = 0 := rfl
  rw [h0] at hlen
  omega

/-- `msgMin` never produces an empty message. -/
theorem msgMin_ne (f : String) (m : Int) : msgMin f m ≠ "" := by
  unfold msgMin errorMin
  split
  · simp
  · simp
  · simp only [Option.getD_none]
    exact boundFallback_ne _ m (by decide)

/-- `msgMax` never produces an empty message. -/
theorem msgMax_ne (f : String) (m : Int) : msgMax f m ≠ "" := by
  unfold msgMax errorMax
  split
  · simp
  · simp
  · simp only [Option.getD_none]
    exact boundFallback_ne _ m (by decide)

/-- Any error produced by the trailing custom check carries the field name
and a non-empty message. -/
theorem customCheck_some (rules : ValidationRule) (f t : String) (e : VError)
    (h : customCheck rules f t = some e) : e.field = f ∧ e.message ≠ "" := by
  unfold customCheck at h
  split at h
  · split at h
    · cases h
      exact ⟨rfl, msgCustom_ne f⟩
    · cases h
  · cases h

/-- Any error produced by the numeric bound checks carries the field name
and a non-empty message. -/
theorem numChecks_some (rules : ValidationRule) (f t : String) (e : VError)
    (h : numChecks rules f t = some e) : e.field = f ∧ e.message ≠ "" := by
  unfold numChecks at h
  split at h
  case _ q _ =>
    split at h
    case _ m _ =>
      split at h
      · cases h
        exact ⟨rfl, msgMin_ne f m⟩
      · split at h
        case _ mx _ =>
          split at h
          · cases h
            exact ⟨rfl, msgMax_ne f mx⟩
          · exact customCheck_some rules f t e h
        case _ => exact customCheck_some rules f t e h
    case _ =>
      split at h
      case _ mx _ =>
        split at h
        · cases h
          exact ⟨rfl, msgMax_ne f mx⟩
        · exact customCheck_some rules f t e h
      case _ => exact customCheck_some rules f t e h
  case _ => exact customCheck_some rules f t e h

/-- Any error produced by `validateValue` carries the field name and a
non-empty message. -/
theorem validateValue_some_shape (f v : String) (e : VError)
    (h : validateValue f v = some e) : e.field = f ∧ e.message ≠ "" := by
  unfold validateValue at h
  split at h
  · cases h
  case _ rules _ =>
    split at h
    · cases h
      exact ⟨rfl, msgRequired_ne f⟩
    · split at h
      case _ vs _ =>
        split at h
        · cases h
          exact ⟨rfl, msgEnum_ne f⟩
        · exact numChecks_some rules f _ e h
      case _ =>
        split at h
        case _ p _ =>
          split at h
          · cases h
            exact ⟨rfl, msgPattern_ne f⟩
          · exact numChecks_some rules f _ e h
        case _ => exact numChecks_some rules f _ e h

/-- `find?` for a field over errors purged of that field plus one new
error finds exactly the new error. -/
theorem find?_filter_append_self (l : List VError) (f : String) (err : VError)
    (hf : err.field = f) :
    ((l.filter (fun e => e.field ≠ f)) ++ [err]).find? (fun e => e.field = f) =
      some err := by
  rw [List.find?_append]
  have h1 : (l.filter (fun e => e.field ≠ f)).find? (fun e => e.field = f) = none := by
    rw [List.find?_eq_none]
    intro x hx
    have hmem := List.of_mem_filter hx
    simp only [decide_eq_true_eq] at hmem ⊢
    exact hmem
  rw [h1]
  simp [List.find?, hf]

/-- C3: committing an edit whose staged value the validator rejects leaves
the record set unchanged, leaves the edit cursor open on the same cell,
and records the validator's error — non-empty message included — where
`getCellError` exposes it to the caller. -/
theorem commitEdit_invalid_keeps_state (st : EditState) (cell : FocusedCell) (err : VError)
    (hcell : st.editingCell = some cell)
    (hval : validateValue cell.columnId st.editValue = some err) :
    (saveEdit st).data = st.data
    ∧ (saveEdit st).editingCell = some cell
    ∧ getCellError (saveEdit st) cell.rowId cell.columnId = some err
    ∧ err.message ≠ "" := by
  have hshape := validateValue_some_shape _ _ _ hval
  have hsave : saveEdit st =
      { st with validationErrors :=
          st.validationErrors.filter (fun e => e.field ≠ cell.columnId) ++ [err] } := by
    simp only [saveEdit, hcell, hval]
  refine ⟨by rw [hsave], by rw [hsave]; exact hcell, ?_, hshape.2⟩
  rw [hsave]
  unfold getCellError
  have hcells : ({ st with validationErrors :=
      st.validationErrors.filter (fun e => e.field ≠ cell.columnId) ++ [err] }
        : EditState).editingCell = some ⟨cell.rowId, cell.columnId⟩ := by
    simpa using hcell
  rw [if_pos hcells]
  exact find?_filter_append_self _ _ _ hshape.1

/-- Witness for `commitEdit_invalid_keeps_state`: staging `15` for `age`
is rejected by the minimum bound and commits nothing. -/
theorem commitEdit_invalid_keeps_state_witness :
    exEditStateBad.editingCell = some exEditCell
    ∧ validateValue exEditCell.columnId exEditStateBad.editValue =
        some ⟨"age", "Age must be at least 16"⟩
    ∧ ((saveEdit exEditStateBad).data = exEditStateBad.data
      ∧ (saveEdit exEditStateBad).editingCell = some exEditCell
      ∧ getCellError (saveEdit exEditStateBad) exEditCell.rowId exEditCell.columnId =
          some ⟨"age", "Age must be at least 16"⟩
      ∧ (VError.mk "age" "Age must be at least 16").message ≠ "") :=
  ⟨rfl, by decide,
    commitEdit_invalid_keeps_state exEditStateBad exEditCell
      ⟨"age", "Age must be at least 16"⟩ rfl (by decide)⟩

/-- C5: a successful commit on an integer column (`age`/`grade`) parses
the staged string with base-10 `parseInt`, sanitising an unparsable string
to `0` instead of failing, writes the result into the record whose id
matches the cursor, and clears the cursor and the staged value (moving
focus back to the cell and dropping the column's stale errors). -/
theorem commitEdit_integer_success (st : EditState) (cell : FocusedCell)
    (hcol : cell.columnId = "age" ∨ cell.columnId = "grade")
    (hcell : st.editingCell = some cell)
    (hval : validateValue cell.columnId st.editValue = none) :
    saveEdit st =
      { st with
        data := st.data.map (fun row =>
          if row.id = cell.rowId then
            setField row cell.columnId (.num ((jsParseInt st.editValue).getD 0))
          else row),
        editingCell := none,
        editValue := "",
        validationErrors := st.validationErrors.filter (fun e => e.field ≠ cell.columnId),
        focusedCell := some cell } := by
  have hconv : convertValue cell.columnId st.editValue =
      .num ((jsParseInt st.editValue).getD 0) := by
    rcases hcol with h | h <;> rw [h] <;> rfl
  simp only [saveEdit, hcell, hval, hconv]

/-- Witness for `commitEdit_integer_success`: committing the unparsable
staged string `abc` on `age` writes the sanitised value `0`. -/
theorem commitEdit_integer_success_witness :
    (exEditCell.columnId = "age" ∨ exEditCell.columnId = "grade")
    ∧ exEditStateConv.editingCell = some exEditCell
    ∧ validateValue exEditCell.columnId exEditStateConv.editValue = none
    ∧ saveEdit exEditStateConv =
      { exEditStateConv with
        data := exEditStateConv.data.map (fun row =>
          if row.id = exEditCell.rowId then
            setField row exEditCell.columnId
              (.num ((jsParseInt exEditStateConv.editValue).getD 0))
          else row),
        editingCell := none,
        editValue := "",
        validationErrors :=
          exEditStateConv.validationErrors.filter (fun e => e.field ≠ exEditCell.columnId),
        focusedCell := some exEditCell } :=
  ⟨Or.inl rfl, rfl, by decide,
    commitEdit_integer_success exEditStateConv exEditCell (Or.inl rfl) rfl (by decide)⟩

/-! ## C7 — the phone validator -/

/-- The pattern test coincides with the amended acceptance condition. -/
theorem phonePattern_iff (s : String) :
    phonePattern s = true ↔ phoneSpecOk s.data := by
  simp only [phonePattern, decide_eq_true_eq]
  rcases hdata : s.data with _ | ⟨c, cs⟩
  · constructor
    · intro h
      simp [phoneBody] at h
    · rintro ⟨body, hb | hb, _, h10, _⟩
      · subst hb; simp at h10
      · cases hb
  · by_cases hc : c = '+'
    · subst hc
      simp only [phoneBody, if_pos rfl]
      constructor
      · rintro ⟨h10, h15, hall⟩
        refine ⟨cs, Or.inr rfl, ?_, h10, h15⟩
        intro x hx
        have := (List.all_eq_true.mp hall) x hx
        simpa [isPhoneChar] using this
      · rintro ⟨body, hb | hb, hclass, h10, h15⟩
        · -- body would begin with '+', which the class excludes
          exfalso
          have hplus : '+' ∈ body := by rw [← hb]; exact List.mem_cons_self _ _
          exact absurd (hclass '+' hplus) (by decide)
        · cases hb
          refine ⟨h10, h15, ?_⟩
          rw [List.all_eq_true]
          intro x hx
          simpa [isPhoneChar] using hclass x hx
    · simp only [phoneBody, if_neg hc]
      constructor
      · rintro ⟨h10, h15, hall⟩
        refine ⟨c :: cs, Or.inl rfl, ?_, h10, h15⟩
        intro x hx
        have := (List.all_eq_true.mp hall) x hx
        simpa [isPhoneChar] using this
      · rintro ⟨body, hb | hb, hclass, h10, h15⟩
        · cases hb
          refine ⟨h10, h15, ?_⟩
          rw [List.all_eq_true]
          intro x hx
          simpa [isPhoneChar] using hclass x hx
        · cases hb
          exact absurd rfl hc

/-- The numeric and custom checks are vacuous for the phone rules. -/
theorem numChecks_phone (t : String) :
    numChecks { pattern := some phonePattern, required := true } "phone" t = none := by
  unfold numChecks customCheck
  cases jsParseFloat t <;> rfl

/-- C7, counterexample: the live phone check bounds the combined count of
digits **and** separators, not the digit count — `123-456-789` carries
only 9 digits (below the claimed minimum of 10) yet is accepted because
its 11 total characters fit the window, and `(((1234567890)))` carries
exactly 10 digits yet is rejected because its 16 total characters
overflow it. -/
theorem phone_digit_count_not_checked :
    validateValue "phone" "123-456-789" = none
    ∧ ("123-456-789".data.filter Char.isDigit).length = 9
    ∧ (validateValue "phone" "(((1234567890)))").isSome = true
    ∧ ("(((1234567890)))".data.filter Char.isDigit).length = 10 := by
  decide

/-- C7, amended: the phone validator accepts a raw string exactly when its
trimmed form is an optional leading `+` followed by 10 to 15 characters
that are each a digit or a separator — the [10, 15] window bounds the
total character count after the optional `+`, digits and separators
counted together, not the digit count alone. -/
theorem phone_validate_iff (v : String) :
    validateValue "phone" v = none ↔ phoneSpecOk (jsTrimChars v.data) := by
  have hrules : validationRules "phone" =
      some { pattern := some phonePattern, required := true } := rfl
  have hdata : (jsTrim v).data = jsTrimChars v.data := rfl
  unfold validateValue
  rw [hrules]
  simp only []
  by_cases hemp : jsTrim v = ""
  · rw [if_pos (by simp [hemp])]
    have hnil : jsTrimChars v.data = [] := by
      have := congrArg String.data hemp
      simpa using this
    constructor
    · intro h; cases h
    · rintro ⟨body, hb | hb, _, h10, _⟩
      · rw [hnil] at hb
        rw [← hb] at h10
        simp at h10
      · rw [hnil] at hb
        cases hb
  · rw [if_neg (by simp [hemp])]
    by_cases hp : phonePattern (jsTrim v) = true
    · rw [if_neg (by simp [hp]), numChecks_phone]
      have hok := (phonePattern_iff (jsTrim v)).mp hp
      rw [hdata] at hok
      simp [hok]
    · have hpf : phonePattern (jsTrim v) = false := by
        simpa using hp
      rw [if_pos (by simp [hpf])]
      constructor
      · intro h; cases h
      · intro hspec
        exact absurd ((phonePattern_iff (jsTrim v)).mpr (by rwa [hdata])) hp

/-! ## C10 — the selected-status invariant -/

/-- One step of `selectedStatus` evolution preserves non-emptiness and
distinctness. -/
theorem statusStep_preserves (st : List String) (op : StatusOp)
    (hne : st ≠ []) (hnd : st.Nodup) :
    statusStep st op ≠ [] ∧ (statusStep st op).Nodup := by
  cases op with
  | selectAll =>
    constructor
    · intro h
      exact nomatch h
    · show (["active", "graduated", "suspended"] : List String).Nodup
      decide
  | clearFilters =>
    constructor
    · intro h
      exact nomatch h
    · show (["active", "graduated", "suspended"] : List String).Nodup
      decide
  | toggle s =>
    simp only [statusStep]
    unfold handleStatusFilterChange
    by_cases hmem : st.contains s
    · rw [if_pos hmem]
      by_cases hlen : st.length = 1
      · rw [if_pos hlen]; exact ⟨hne, hnd⟩
      · rw [if_neg hlen]
        refine ⟨?_, hnd.filter _⟩
        rcases st with _ | ⟨a, rest⟩
        · exact absurd rfl hne
        rcases rest with _ | ⟨b, rest2⟩
        · exact absurd rfl hlen
        rw [Ne, List.filter_eq_nil_iff]
        push_neg
        by_cases ha : a = s
        · refine ⟨b, by simp, ?_⟩
          have hab : a ∉ b :: rest2 := (List.nodup_cons.mp hnd).1
          have hableft : a ≠ b := fun h => hab (h ▸ List.mem_cons_self _ _)
          simp only [decide_eq_true_eq]
          exact fun hb => hableft (by rw [ha, hb])
        · exact ⟨a, by simp, by simp [decide_eq_true_eq, ha]⟩
    · rw [if_neg hmem]
      have hs : s ∉ st := by simpa using hmem
      refine ⟨by simp, ?_⟩
      rw [List.nodup_append]
      refine ⟨hnd, List.nodup_singleton s, ?_⟩
      intro a ha hae
      rw [List.mem_singleton] at hae
      exact hs (hae ▸ ha)

/-- The invariant carried along any operation sequence. -/
theorem selectedStatus_foldl (ops : List StatusOp) :
    ∀ st : List String, st ≠ [] → st.Nodup →
      ops.foldl statusStep st ≠ [] ∧ (ops.foldl statusStep st).Nodup := by
  induction ops with
  | nil => intro st h1 h2; exact ⟨h1, h2⟩
  | cons op rest ih =>
    intro st h1 h2
    have hstep := statusStep_preserves st op h1 h2
    exact ih _ hstep.1 hstep.2

/-- C10: the status inclusion list starts as the full set of the three
statuses; toggling the sole remaining status off is refused; select-all
and clear-filters restore the full set; and along **every** sequence of
these operations the list stays non-empty. -/
theorem selectedStatus_never_empty :
    initialSelectedStatus = ["active", "graduated", "suspended"]
    ∧ (∀ s, handleStatusFilterChange s [s] = [s])
    ∧ (∀ st : List String, statusStep st .selectAll = initialSelectedStatus
        ∧ statusStep st .clearFilters = initialSelectedStatus)
    ∧ (∀ ops : List StatusOp, ops.foldl statusStep initialSelectedStatus ≠ []) := by
  refine ⟨rfl, ?_, fun st => ⟨rfl, rfl⟩, ?_⟩
  · intro s
    unfold handleStatusFilterChange
    rw [if_pos (by simp), if_pos (show List.length [s] = 1 from rfl)]
  · intro ops
    exact (selectedStatus_foldl ops initialSelectedStatus (by decide) (by decide)).1

/-! ## C2 — stability of the sorted row model -/

/-- Two positions of a list, in order, form a sublist. -/
theorem pair_getElem_sublist {α : Type} (l : List α) (i j : Nat)
    (hi : i < l.length) (hj : j < l.length) (hij : i < j) :
    List.Sublist [l[i], l[j]] l := by
  have hdrop : l.drop i = l[i] :: l.drop (i + 1) := List.drop_eq_getElem_cons hi
  have hj' : j - (i + 1) < (l.drop (i + 1)).length := by
    rw [List.length_drop]; omega
  have hget : (l.drop (i + 1))[j - (i + 1)] = l[j] := by
    rw [List.getElem_drop]
    congr 1
    omega
  have hmem : l[j] ∈ l.drop (i + 1) := by
    rw [← hget]
    exact List.getElem_mem _
  have hsub : List.Sublist [l[i], l[j]] (l[i] :: l.drop (i + 1)) :=
    List.Sublist.cons₂ _ (List.singleton_sublist.mpr hmem)
  have hstep : List.Sublist [l[i], l[j]] (l.drop i) := by
    rw [hdrop]; exact hsub
  exact hstep.trans (List.drop_sublist i l)

/-- C2: the sorted row model is stable — whenever the multi-key comparison
ties two rows of the record set, the earlier row (tagged with its input
position) still precedes the later one in the sorted sequence. -/
theorem derive_sort_stable (rules : List SortRule) (records : List Student)
    (i j : Nat) (hi : i < records.length) (hj : j < records.length) (hij : i < j)
    (heq : cmpRows rules records[i] records[j] = .eq) :
    List.Sublist [(i, records[i]), (j, records[j])] (sortTagged rules records) := by
  have hle : tagLe rules (i, records[i]) (j, records[j]) := by
    unfold tagLe
    simp [heq]
  have hi' : i < records.enum.length := by rw [List.enum_length]; exact hi
  have hj' : j < records.enum.length := by rw [List.enum_length]; exact hj
  have henum : List.Sublist [(i, records[i]), (j, records[j])] records.enum := by
    have h := pair_getElem_sublist records.enum i j hi' hj' hij
    rwa [List.getElem_enum, List.getElem_enum] at h
  exact List.pair_sublist_insertionSort hle henum

/-- Witness for `derive_sort_stable`: ages [30, 20, 20] under an ascending
age sort — the two age-20 rows tie and keep their input order (the spec's
own example scenario). -/
theorem derive_sort_stable_witness :
    ((1 : Nat) < 2 ∧ 2 < [exStudentA, exStudentB, exStudentC].length
      ∧ cmpRows [⟨"age", false⟩] exStudentB exStudentC = .eq)
    ∧ List.Sublist [(1, exStudentB), (2, exStudentC)]
        (sortTagged [⟨"age", false⟩] [exStudentA, exStudentB, exStudentC]) := by
  refine ⟨⟨by decide, by decide, by decide⟩, ?_⟩
  exact derive_sort_stable [⟨"age", false⟩] [exStudentA, exStudentB, exStudentC]
    1 2 (by decide) (by decide) (by decide) (by decide)

/-! ## C9 — CSV export round trip -/

/-- Scanning a clean segment accumulates it into the current field. -/
theorem csvScanPlain_clean (s : List Char) (hs : CleanChars s) :
    ∀ (field : List Char) (fields : List (List Char))
      (recs : List (List (List Char))) (rest : List Char),
      csvScanPlain field fields recs (s ++ rest) =
        csvScanPlain (field ++ s) fields recs rest := by
  induction s with
  | nil => intro field fields recs rest; simp
  | cons c cs ih =>
    intro field fields recs rest
    have hc := hs c (List.mem_cons_self _ _)
    have hcs : CleanChars cs := fun x hx => hs x (List.mem_cons_of_mem _ hx)
    rw [List.cons_append]
    rw [show csvScanPlain field fields recs (c :: (cs ++ rest)) =
        csvScanPlain (field ++ [c]) fields recs (cs ++ rest) from by
      simp only [csvScanPlain, if_neg hc.1, if_neg hc.2.1, if_neg hc.2.2]]
    rw [ih hcs]
    congr 1
    simp

/-- A comma ends the current field. -/
theorem csvScanPlain_comma (field : List Char) (fields : List (List Char))
    (recs : List (List (List Char))) (rest : List Char) :
    csvScanPlain field fields recs (',' :: rest) =
      csvScanPlain [] (fields ++ [field]) recs rest := by
  simp [csvScanPlain]

/-- A newline ends the current record. -/
theorem csvScanPlain_newline (field : List Char) (fields : List (List Char))
    (recs : List (List (List Char))) (rest : List Char) :
    csvScanPlain field fields recs ('\n' :: rest) =
      csvScanPlain [] [] (recs ++ [fields ++ [field]]) rest := by
  simp [csvScanPlain]

/-- A quote switches to the quoted scanner. -/
theorem csvScanPlain_quote (field : List Char) (fields : List (List Char))
    (recs : List (List (List Char))) (rest : List Char) :
    csvScanPlain field fields recs ('"' :: rest) =
      csvScanQuoted field fields recs rest := by
  simp [csvScanPlain]

/-- Scanning quote-escaped content inside a quoted field recovers the
original characters; the closing quote hands control back to the plain
scanner (the following character, if any, must not be a quote). -/
theorem csvScanQuoted_escape (s : List Char) :
    ∀ (field : List Char) (fields : List (List Char))
      (recs : List (List (List Char))) (rest : List Char),
      (∀ c cs', rest = c :: cs' → c ≠ '"') →
      csvScanQuoted field fields recs (escapeQuotes s ++ ('"' :: rest)) =
        csvScanPlain (field ++ s) fields recs rest := by
  induction s with
  | nil =>
    intro field fields recs rest hq
    rw [show escapeQuotes [] = [] from rfl, List.nil_append]
    rcases rest with _ | ⟨c2, rest2⟩
    · simp [csvScanQuoted, csvScanPlain]
    · have hc2 : c2 ≠ '"' := hq c2 rest2 rfl
      simp [csvScanQuoted, hc2]
  | cons c cs ih =>
    intro field fields recs rest hq
    by_cases hc : c = '"'
    · subst hc
      rw [show escapeQuotes ('"' :: cs) = '"' :: '"' :: escapeQuotes cs from by
        simp [escapeQuotes]]
      rw [List.cons_append, List.cons_append]
      rw [show csvScanQuoted field fields recs
            ('"' :: ('"' :: (escapeQuotes cs ++ ('"' :: rest)))) =
          csvScanQuoted (field ++ ['"']) fields recs
            (escapeQuotes cs ++ ('"' :: rest)) from by
        rw [csvScanQuoted]
        simp]
      rw [ih _ _ _ _ hq]
      congr 1
      simp
    · rw [show escapeQuotes (c :: cs) = c :: escapeQuotes cs from by
        simp [escapeQuotes, hc]]
      rw [List.cons_append]
      rw [show csvScanQuoted field fields recs
            (c :: (escapeQuotes cs ++ ('"' :: rest))) =
          csvScanQuoted (field ++ [c]) fields recs
            (escapeQuotes cs ++ ('"' :: rest)) from by
        rw [csvScanQuoted.eq_def]
        simp [hc]]
      rw [ih _ _ _ _ hq]
      congr 1
      simp

/-- A quoted field starting at an empty current field parses back to its
unescaped content. -/
theorem csvScanPlain_quoted_field (s : List Char) (fields : List (List Char))
    (recs : List (List (List Char))) (rest : List Char)
    (hq : ∀ c cs', rest = c :: cs' → c ≠ '"') :
    csvScanPlain [] fields recs (quoteField s ++ rest) =
      csvScanPlain s fields recs rest := by
  rw [show quoteField s ++ rest = '"' :: (escapeQuotes s ++ ('"' :: rest)) from by
    simp [quoteField]]
  rw [csvScanPlain_quote, csvScanQuoted_escape s _ _ _ _ hq, List.nil_append]

/-- Every character emitted by `natCharsAux` is a decimal digit. -/
theorem natCharsAux_digits (fuel : Nat) :
    ∀ n c, c ∈ natCharsAux fuel n → c.isDigit = true := by
  induction fuel with
  | zero => intro n c h; cases h
  | succ f ih =>
    intro n c h
    rw [natCharsAux] at h
    split at h
    · cases h
    · rw [List.mem_append] at h
      rcases h with h | h
      · exact ih _ _ h
      · rw [List.mem_singleton] at h
        subst h
        have hr : n % 10 = 0 ∨ n % 10 = 1 ∨ n % 10 = 2 ∨ n % 10 = 3 ∨ n % 10 = 4
            ∨ n % 10 = 5 ∨ n % 10 = 6 ∨ n % 10 = 7 ∨ n % 10 = 8 ∨ n % 10 = 9 := by
          omega
        rcases hr with h | h | h | h | h | h | h | h | h | h <;> rw [h] <;> decide

/-- The decimal rendering of an integer needs no CSV quoting. -/
theorem intChars_clean (n : Int) : CleanChars (intChars n) := by
  intro c hc
  have hdig_or : c.isDigit = true ∨ c = '-' := by
    unfold intChars at hc
    split at hc
    · unfold natChars at hc
      split at hc
      · rw [List.mem_singleton] at hc; subst hc; left; decide
      · left; exact natCharsAux_digits _ _ _ hc
    · rcases List.mem_cons.mp hc with h | h
      · right; exact h
      · unfold natChars at h
        split at h
        · rw [List.mem_singleton] at h; subst h; left; decide
        · left; exact natCharsAux_digits _ _ _ h
  rcases hdig_or with h | h
  · refine ⟨?_, ?_, ?_⟩ <;> intro he <;> rw [he] at h <;> exact absurd h (by decide)
  · subst h; exact ⟨by decide, by decide, by decide⟩

/-- A lifecycle status value needs no CSV quoting. -/
theorem status_clean (s : String) (h : s ∈ VALID_STATUSES) : CleanChars s.data := by
  have h3 : s = "active" ∨ s = "graduated" ∨ s = "suspended" := by
    simpa [VALID_STATUSES] using h
  rcases h3 with rfl | rfl | rfl <;> decide

/-- Scanning one exported row line accumulates exactly its field values. -/
theorem csvScanPlain_row (r : Student) (hid : CleanChars r.id.data)
    (hstatus : CleanChars r.status.data)
    (recs : List (List (List Char))) (rest : List Char) :
    csvScanPlain [] [] recs (csvRowLine r ++ rest) =
      csvScanPlain r.status.data
        [r.id.data, r.name.data, intChars r.age, intChars r.grade,
         r.email.data, r.phone.data, r.major.data] recs rest := by
  unfold csvRowLine
  simp only [List.append_assoc, List.cons_append]
  rw [csvScanPlain_clean r.id.data hid, List.nil_append, csvScanPlain_comma]
  rw [csvScanPlain_quoted_field _ _ _ _ (by intro c cs' h; cases h; decide),
    csvScanPlain_comma]
  rw [csvScanPlain_clean (intChars r.age) (intChars_clean _), List.nil_append,
    csvScanPlain_comma]
  rw [csvScanPlain_clean (intChars r.grade) (intChars_clean _), List.nil_append,
    csvScanPlain_comma]
  rw [csvScanPlain_quoted_field _ _ _ _ (by intro c cs' h; cases h; decide),
    csvScanPlain_comma]
  rw [csvScanPlain_quoted_field _ _ _ _ (by intro c cs' h; cases h; decide),
    csvScanPlain_comma]
  rw [csvScanPlain_quoted_field _ _ _ _ (by intro c cs' h; cases h; decide),
    csvScanPlain_comma]
  rw [csvScanPlain_clean r.status.data hstatus, List.nil_append]
  simp

/-- Scanning the newline-prefixed row lines appends one record of field
values per row, in input order. -/
theorem csvScanPlain_rows (rows : List Student)
    (h : ∀ r ∈ rows, CleanChars r.id.data ∧ r.status ∈ VALID_STATUSES) :
    ∀ (field : List Char) (fields : List (List Char))
      (recs : List (List (List Char))),
      csvScanPlain field fields recs
        (rows.foldr (fun r acc => '\n' :: (csvRowLine r ++ acc)) []) =
      recs ++ [fields ++ [field]] ++ rows.map csvRowFields := by
  induction rows with
  | nil => intro field fields recs; simp [csvScanPlain]
  | cons r rs ih =>
    intro field fields recs
    simp only [List.foldr_cons]
    rw [csvScanPlain_newline]
    rw [csvScanPlain_row r (h r (List.mem_cons_self _ _)).1
      (status_clean _ (h r (List.mem_cons_self _ _)).2)]
    rw [ih (fun x hx => h x (List.mem_cons_of_mem _ hx))]
    simp [csvRowFields]

/-- Shift an append past a leading comma (specialised so that rewriting
cannot unfold string literals). -/
theorem comma_cons_append (w rest : List Char) :
    (',' :: w) ++ rest = ',' :: (w ++ rest) := rfl

/-- Scanning the header line accumulates the eight header labels. -/
theorem csvScanPlain_header (recs : List (List (List Char))) (rest : List Char) :
    csvScanPlain [] [] recs (csvHeaderLine ++ rest) =
      csvScanPlain "Status".data
        ["ID".data, "Name".data, "Age".data, "Grade".data, "Email".data,
         "Phone".data, "Major".data] recs rest := by
  have hsplit : csvHeaderLine = "ID".data ++ (',' :: ("Name".data ++ (',' :: ("Age".data ++ (',' :: ("Grade".data ++ (',' :: ("Email".data ++ (',' :: ("Phone".data ++ (',' :: ("Major".data ++ (',' :: ("Status".data)))))))))))))) := by decide
  rw [hsplit]
  conv_lhs => arg 4; rw [List.append_assoc, comma_cons_append]
  rw [csvScanPlain_clean "ID".data (by decide), List.nil_append, csvScanPlain_comma]
  conv_lhs => arg 4; rw [List.append_assoc, comma_cons_append]
  rw [csvScanPlain_clean "Name".data (by decide), List.nil_append, csvScanPlain_comma]
  conv_lhs => arg 4; rw [List.append_assoc, comma_cons_append]
  rw [csvScanPlain_clean "Age".data (by decide), List.nil_append, csvScanPlain_comma]
  conv_lhs => arg 4; rw [List.append_assoc, comma_cons_append]
  rw [csvScanPlain_clean "Grade".data (by decide), List.nil_append, csvScanPlain_comma]
  conv_lhs => arg 4; rw [List.append_assoc, comma_cons_append]
  rw [csvScanPlain_clean "Email".data (by decide), List.nil_append, csvScanPlain_comma]
  conv_lhs => arg 4; rw [List.append_assoc, comma_cons_append]
  rw [csvScanPlain_clean "Phone".data (by decide), List.nil_append, csvScanPlain_comma]
  conv_lhs => arg 4; rw [List.append_assoc, comma_cons_append]
  rw [csvScanPlain_clean "Major".data (by decide), List.nil_append, csvScanPlain_comma]
  rw [csvScanPlain_clean "Status".data (by decide), List.nil_append]
  simp

/-- C9, counterexample: for a row whose id contains a comma the export is
not parsed back to the row's field values — the id is interpolated
unquoted, so a conforming reader splits it into two fields. -/
theorem csv_roundtrip_fails_comma_id :
    csvParse (exportToCSV [exStudentBadId]) ≠
      csvHeaders.map String.data :: [exStudentBadId].map csvRowFields := by
  decide

/-- C9, amended: for every row sequence whose ids contain no delimiter,
quote or newline (statuses are constrained to the enum by the `Student`
type), the export consists of the human-readable header labels — not the
internal field ids — followed by one line per row in input order, with the
textual fields quoted and quote-doubled, and a conforming CSV reader
parses it back to exactly the header labels and every row's field
values. -/
theorem csv_roundtrip (rows : List Student)
    (h : ∀ r ∈ rows, CleanChars r.id.data ∧ r.status ∈ VALID_STATUSES) :
    csvParse (exportToCSV rows) =
      csvHeaders.map String.data :: rows.map csvRowFields
    ∧ csvHeaders ≠ csvFieldIds := by
  refine ⟨?_, by decide⟩
  unfold csvParse exportToCSV
  rw [show (String.mk (csvContentChars rows)).data = csvContentChars rows from rfl]
  have hne : (csvContentChars rows).isEmpty = false := by
    unfold csvContentChars
    rcases hcase : csvHeaderLine ++
        rows.foldr (fun r acc => '\n' :: (csvRowLine r ++ acc)) [] with _ | ⟨c, cs⟩
    · exfalso
      have := (List.append_eq_nil.mp hcase).1
      exact absurd this (by decide)
    · rfl
  rw [if_neg (by simp [hne])]
  unfold csvContentChars
  rw [csvScanPlain_header, csvScanPlain_rows rows h]
  simp [csvHeaders]

/-- Witness for `csv_roundtrip`: two generator-shaped records export and
parse back to their field values. -/
theorem csv_roundtrip_witness :
    (∀ r ∈ [exStudentA, exStudentB], CleanChars r.id.data ∧ r.status ∈ VALID_STATUSES)
    ∧ (csvParse (exportToCSV [exStudentA, exStudentB]) =
        csvHeaders.map String.data :: [exStudentA, exStudentB].map csvRowFields
      ∧ csvHeaders ≠ csvFieldIds) :=
  ⟨by decide, csv_roundtrip [exStudentA, exStudentB] (by decide)⟩
